import Mathlib

/-!
Verification development for the OPC UA connectivity and subscription core of
the `opcuagua` repository (`server/opcua/client.ts`, `server/opcua/subscription.ts`,
the route/broadcast layer, the Prisma storage layer, and the client-side
correlation layer in `NavigationContext.tsx`).

Each TypeScript function relevant to the checked properties is shallowly
embedded as an executable Lean definition.  Stateful classes become explicit
state records with pure transition functions; fallible calls return `Except`;
external effects (protocol stack, database, WebSocket broadcast) are threaded
explicitly as inputs or collected outputs.  Machine timestamps are epoch
milliseconds as `Nat`; numeric sample payloads are modelled as `Int`.
-/

namespace Opcuagua

/-! ## Data surface of the node-opcua dependency used by the handlers -/

/-- Quality/status code of a delivered sample (node-opcua `StatusCodes`).
Only the distinction against `Good` and the `.name` field are used by the
embedded code. -/
inductive StatusCode where
  | good
  | uncertain
  | bad
  deriving DecidableEq, Repr

/-- `statusCode.name` as used in `subscription.ts` (`dataValue.statusCode.name`). -/
def StatusCode.name : StatusCode → String
  | .good => "Good"
  | .uncertain => "Uncertain"
  | .bad => "Bad"

/-- A dynamically typed JavaScript value as carried in `dataValue.value.value`. -/
inductive JsValue where
  | num (x : Int)
  | str (s : String)
  | boolean (b : Bool)
  | null
  deriving DecidableEq, Repr

/-- `typeof value === 'number' ? value : null` from the reading-persistence path. -/
def JsValue.numValue? : JsValue → Option Int
  | .num x => some x
  | _ => none

/-- The slice of a node-opcua `DataValue` read by the monitored-item handler:
status code, sample value, data type (already stringified), and the optional
source timestamp (epoch ms). -/
structure DataValue where
  statusCode : StatusCode
  value : JsValue
  dataType : String
  sourceTimestamp : Option Nat
  deriving DecidableEq, Repr

/-! ## Persistence rows (storage.ts interfaces, fields used by the core) -/

/-- A persisted `Tag` row (`storage.ts`), restricted to the fields the
subscription core reads: primary key, OPC UA node identifier, subscription flag. -/
structure Tag where
  id : Nat
  nodeId : String
  isSubscribed : Bool
  deriving DecidableEq, Repr

/-- A persisted `Reading` row as created by the monitored-item handler
(`prisma.reading.create` in `subscription.ts`). -/
structure Reading where
  tagId : Nat
  value : Option Int
  quality : String
  timestamp : Nat
  deriving DecidableEq, Repr

/-- `prisma.tag.findFirst({ where: { nodeId } })` over the tag table. -/
def findTagByNodeId (tags : List Tag) (nodeId : String) : Option Tag :=
  tags.find? (fun t => t.nodeId == nodeId)

/-! ## Value-change notification handling (subscription.ts lines 140-170) -/

/-- The `(nodeId, value, dataType, timestamp)` tuple passed to the registered
value-change callback (`onValueChange` / `handleValueChange`). -/
structure ChangeEvent where
  nodeId : String
  value : JsValue
  dataType : String
  timestamp : Nat
  deriving DecidableEq, Repr

/-- The monitored item's `changed` handler from `SubscriptionManager.subscribe`:
non-Good samples are logged and discarded; otherwise the tag is resolved by
node identifier, a `Reading` is persisted (numeric payloads only, quality =
status-code name, timestamp = source timestamp or arrival time), and the
value-change callback is invoked.  Result: (persisted readings, emitted events). -/
def monitoredItemChanged (tags : List Tag) (nodeId : String) (dataValue : DataValue)
    (arrival : Nat) : List Reading × List ChangeEvent :=
  if dataValue.statusCode ≠ StatusCode.good then
    ([], [])
  else
    let value := dataValue.value
    let dataType := dataValue.dataType
    let timestamp := dataValue.sourceTimestamp.getD arrival
    match findTagByNodeId tags nodeId with
    | none => ([], [])
    | some tag =>
        ([{ tagId := tag.id
            value := value.numValue?
            quality := dataValue.statusCode.name
            timestamp := timestamp }],
         [{ nodeId := nodeId, value := value, dataType := dataType, timestamp := timestamp }])

/-! ## WebSocket broadcast and value-change batching (routes, lines 433-456) -/

/-- The `connection_status` broadcast payload (optional fields as in the routes). -/
structure ConnectionStatusMsg where
  connected : Bool
  endpoint : Option String := none
  reconnecting : Option Bool := none
  reconnected : Option Bool := none
  retry : Option Nat := none
  delay : Option Nat := none
  deriving DecidableEq, Repr

/-- Messages broadcast to all WebSocket consumers by the route layer. -/
inductive WsMessage where
  | connectionStatus (msg : ConnectionStatusMsg)
  | valueChangesBatch (changes : List ChangeEvent)
  deriving DecidableEq, Repr

/-- The in-memory batching state of the route layer: the accumulated
`valueChangeBatch` and whether `batchTimeout` is armed (non-null). -/
structure BatchState where
  valueChangeBatch : List ChangeEvent
  batchTimeoutArmed : Bool
  deriving DecidableEq, Repr

/-- `handleValueChange`: append the tuple to the batch; if this is the first
item of an empty batch (timer not armed), arm the 50ms flush timer. -/
def handleValueChange (c : ChangeEvent) (s : BatchState) : BatchState :=
  let s1 : BatchState := { s with valueChangeBatch := s.valueChangeBatch ++ [c] }
  if s1.batchTimeoutArmed then s1 else { s1 with batchTimeoutArmed := true }

/-- `sendBatchedValueChanges` (the flush-timer body): broadcast one
`value_changes_batch` message holding the whole batch when non-empty, clear the
batch, and disarm the timer. -/
def sendBatchedValueChanges (s : BatchState) : List WsMessage × BatchState :=
  ((if s.valueChangeBatch.isEmpty then [] else [WsMessage.valueChangesBatch s.valueChangeBatch]),
   { valueChangeBatch := [], batchTimeoutArmed := false })

/-! ## SubscriptionManager state (subscription.ts lines 18-221)

The protocol-level objects are modelled by the behaviour the embedded code
depends on: a `ClientSubscription` / `ClientMonitoredItem` handle records
whether its `terminate()` call raises, and the manager state additionally
tracks `protoLive`, the set of node identifiers that currently have a live
protocol-level monitored item on the server (created by
`ClientMonitoredItem.create`, destroyed by terminating the item or by
terminating the subscription object that contains it). -/

/-- The subscription-parameter record (`SubscriptionSettings` interface). -/
structure SubscriptionSettings where
  publishingInterval : Nat
  samplingInterval : Nat
  queueSize : Nat
  deriving DecidableEq, Repr

/-- A protocol-level `ClientSubscription` handle. -/
structure ClientSubscription where
  terminateThrows : Bool
  deriving DecidableEq, Repr

/-- A protocol-level `ClientMonitoredItem` handle. -/
structure ClientMonitoredItem where
  terminateThrows : Bool
  deriving DecidableEq, Repr

/-- State of a `SubscriptionManager` instance together with the connectivity
snapshot of its `OpcUaClient` (`client.isConnected()`), the monitored-items
map (insertion-ordered association list with unique keys, as a JS `Map`), and
the protocol-level live-item set. -/
structure ManagerState where
  connected : Bool
  subscription : Option ClientSubscription
  monitoredItems : List (String × ClientMonitoredItem)
  protoLive : List String
  defaultSettings : SubscriptionSettings
  deriving DecidableEq, Repr

/-- `monitoredItems.has(nodeId)`. -/
def ManagerState.hasItem (s : ManagerState) (n : String) : Bool :=
  s.monitoredItems.any (fun p => p.1 == n)

/-- `SubscriptionManager.subscribe(nodeId)`: fail when the client is not
connected; lazily create the protocol subscription; no-op when the node is
already monitored; otherwise read the node attributes and create one monitored
item (the oracle `serverOk` says whether the server accepts the node — a
`false` answer models `readNodeAttributes` / item creation throwing, which the
method logs and rethrows). -/
def subscribe (serverOk : String → Bool) (nodeId : String) (s : ManagerState) :
    Except String ManagerState :=
  if s.connected = false then
    Except.error "OPC UA client not connected"
  else
    let s1 : ManagerState :=
      if s.subscription.isNone then { s with subscription := some ⟨false⟩ } else s
    if s1.hasItem nodeId then
      Except.ok s1
    else if serverOk nodeId then
      Except.ok { s1 with
        monitoredItems := s1.monitoredItems ++ [(nodeId, ⟨false⟩)]
        protoLive := s1.protoLive ++ [nodeId] }
    else
      Except.error ("Error subscribing to " ++ nodeId)

/-- `SubscriptionManager.clear()`: terminate every monitored item (each
`terminate` error is caught and logged), empty the map unconditionally, then
terminate the subscription object; when that `terminate()` raises, the `catch`
runs before `this.subscription = null`, so the handle is retained. -/
def clear (s : ManagerState) : ManagerState :=
  let liveAfterItems := s.protoLive.filter (fun n =>
    match s.monitoredItems.find? (fun p => p.1 == n) with
    | some item => item.2.terminateThrows
    | none => true)
  match s.subscription with
  | none =>
      { s with monitoredItems := [], protoLive := liveAfterItems }
  | some sub =>
      if sub.terminateThrows then
        { s with monitoredItems := [], protoLive := liveAfterItems }
      else
        { s with monitoredItems := [], subscription := none, protoLive := [] }

/-- `SubscriptionManager.setDefaultSettings(settings)`: replace the settings;
when a subscription object exists, terminate it (killing its protocol-level
monitored items), null the field and re-run `initSubscription`, which recreates
a fresh subscription when the client is connected and throws (leaving the field
null) otherwise.  A `terminate()` error is caught, leaving the old handle in
place.  The monitored-items map is never touched. -/
def setDefaultSettings (settings : SubscriptionSettings) (s : ManagerState) : ManagerState :=
  let s1 : ManagerState := { s with defaultSettings := settings }
  match s1.subscription with
  | none => s1
  | some sub =>
      if sub.terminateThrows then s1
      else
        { s1 with
          subscription := if s1.connected then some ⟨false⟩ else none
          protoLive := [] }

/-! ## OpcUaClient connection lifecycle (client.ts lines 46-325) -/

/-- A live `ClientSession` handle; records whether `session.close()` raises. -/
structure ClientSession where
  closeThrows : Bool
  deriving DecidableEq, Repr

/-- An underlying `OPCUAClient` (transport) handle; records whether
`client.disconnect()` raises. -/
structure OPCUAClient where
  disconnectThrows : Bool
  deriving DecidableEq, Repr

/-- The mutable fields of an `OpcUaClient` instance touched by `disconnect`:
the transport handle, the session handle, and the `connected` flag. -/
structure ClientState where
  client : Option OPCUAClient
  session : Option ClientSession
  connected : Bool
  deriving DecidableEq, Repr

/-- `OpcUaClient.isConnected()`: transport flag AND a live session handle. -/
def isConnected (s : ClientState) : Bool :=
  s.connected && s.session.isSome

/-- `OpcUaClient.disconnect()` (client.ts lines 272-313): return at once when
neither handle exists; close the session, catching (and only logging) any
error, and null the handle; then disconnect the transport — here an error is
caught, but because `this.session` has already been nulled the guard
`if (!this.session) throw err` rethrows it, the outer catch rethrows again,
and the trailing `this.connected = false` is never reached.  On the
non-raising path the flag is cleared.  The result pairs the end state with
`Except.ok` or the propagated error. -/
def disconnect (s : ClientState) : ClientState × Except String Unit :=
  if s.client = none ∧ s.session = none then
    (s, Except.ok ())
  else
    let s1 : ClientState := { s with session := none }
    match s.client with
    | none => ({ s1 with connected := false }, Except.ok ())
    | some c =>
        if c.disconnectThrows then
          (s1, Except.error "Erro ao desconectar cliente OPC UA")
        else
          ({ s1 with connected := false }, Except.ok ())

end Opcuagua

namespace Opcuagua

/-! ## Claim C1 -/

/-- **C1.** For every delivered value-change notification: a non-Good quality
persists no Reading and emits no event; a Good quality with an existing Tag for
the node identifier persists exactly one Reading whose value is the sample
value when numeric and null otherwise, whose quality is the status-code name,
and whose timestamp is the source timestamp, or the arrival time when the
source timestamp is absent. -/
theorem valueChange_persistence_correct (tags : List Tag) (nodeId : String)
    (dataValue : DataValue) (arrival : Nat) :
    (dataValue.statusCode ≠ StatusCode.good →
      monitoredItemChanged tags nodeId dataValue arrival = ([], [])) ∧
    (dataValue.statusCode = StatusCode.good →
      ∀ tag, findTagByNodeId tags nodeId = some tag →
        (monitoredItemChanged tags nodeId dataValue arrival).1.length = 1 ∧
        ∀ r ∈ (monitoredItemChanged tags nodeId dataValue arrival).1,
          r.tagId = tag.id ∧
          (∀ x, dataValue.value = JsValue.num x → r.value = some x) ∧
          ((∀ x, dataValue.value ≠ JsValue.num x) → r.value = none) ∧
          r.quality = dataValue.statusCode.name ∧
          r.timestamp = dataValue.sourceTimestamp.getD arrival) := by
  constructor
  · intro hbad
    simp [monitoredItemChanged, hbad]
  · intro hgood tag htag
    simp only [monitoredItemChanged, hgood, ne_eq, not_true_eq_false, if_false, htag]
    refine ⟨rfl, ?_⟩
    intro r hr
    simp only [List.mem_singleton] at hr
    subst hr
    refine ⟨rfl, ?_, ?_, rfl, rfl⟩
    · intro x hx
      simp [JsValue.numValue?, hx]
    · intro hx
      cases hv : dataValue.value with
      | num x => exact absurd hv (hx x)
      | str s => simp [JsValue.numValue?]
      | boolean b => simp [JsValue.numValue?]
      | null => simp [JsValue.numValue?]

/-- Witness for C1: a Bad-quality notification creates nothing, and a Good one
for an existing tag creates exactly one reading. -/
theorem valueChange_persistence_correct_witness :
    monitoredItemChanged [⟨1, "ns=1;s=Level", true⟩] "ns=1;s=Level"
      ⟨StatusCode.bad, JsValue.num 42, "Double", some 100⟩ 200 = ([], []) ∧
    (monitoredItemChanged [⟨1, "ns=1;s=Level", true⟩] "ns=1;s=Level"
      ⟨StatusCode.good, JsValue.num 42, "Double", none⟩ 200).1.length = 1 := by
  constructor
  · exact (valueChange_persistence_correct [⟨1, "ns=1;s=Level", true⟩] "ns=1;s=Level"
      ⟨StatusCode.bad, JsValue.num 42, "Double", some 100⟩ 200).1 (by decide)
  · exact ((valueChange_persistence_correct [⟨1, "ns=1;s=Level", true⟩] "ns=1;s=Level"
      ⟨StatusCode.good, JsValue.num 42, "Double", none⟩ 200).2 rfl
      ⟨1, "ns=1;s=Level", true⟩ (by decide)).1

/-! ## Claim C3 -/

/-- Unfolding lemma for `hasItem`. -/
@[simp]
theorem hasItem_def (s : ManagerState) (n : String) :
    ManagerState.hasItem s n = s.monitoredItems.any (fun p => p.1 == n) := rfl

/-- `hasItem` is membership of the key list. -/
theorem hasItem_iff_mem (s : ManagerState) (n : String) :
    s.hasItem n = true ↔ n ∈ s.monitoredItems.map Prod.fst := by
  simp only [ManagerState.hasItem, List.any_eq_true, List.mem_map]
  constructor
  · rintro ⟨p, hp, hpe⟩
    exact ⟨p, hp, by simpa using hpe⟩
  · rintro ⟨p, hp, rfl⟩
    exact ⟨p, hp, by simp⟩

/-- A successful `subscribe` requires a connected client. -/
theorem subscribe_connected_of_ok (serverOk : String → Bool) (n : String) (s s1 : ManagerState)
    (h : subscribe serverOk n s = Except.ok s1) : s.connected = true := by
  cases hconn : s.connected with
  | false => simp [subscribe, hconn] at h
  | true => rfl

/-- Characterization of a successful `subscribe`: connectivity is untouched, a
subscription object exists afterwards, the node is monitored afterwards, and
the map either is unchanged (the entry already existed) or grew by exactly the
one new entry. -/
theorem subscribe_ok_spec (serverOk : String → Bool) (n : String) (s s1 : ManagerState)
    (h : subscribe serverOk n s = Except.ok s1) :
    s1.connected = s.connected ∧ s1.subscription.isNone = false ∧ s1.hasItem n = true ∧
    (s1.monitoredItems = s.monitoredItems ∨
      (s.hasItem n = false ∧ s1.monitoredItems = s.monitoredItems ++ [(n, ⟨false⟩)])) := by
  have hconn := subscribe_connected_of_ok serverOk n s s1 h
  cases hn : s.subscription.isNone with
  | true =>
      by_cases hh : s.hasItem n
      · have hh1 : s.monitoredItems.any (fun p => p.1 == n) = true := hh
        simp [subscribe, hconn, hn, hh1] at h
        subst h
        exact ⟨hconn.symm, rfl, hh1, Or.inl rfl⟩
      · have hh1 : s.monitoredItems.any (fun p => p.1 == n) = false := Bool.eq_false_iff.mpr hh
        by_cases hok : serverOk n
        · simp [subscribe, hconn, hn, hh1, hok] at h
          subst h
          refine ⟨hconn.symm, rfl, ?_, Or.inr ⟨hh1, rfl⟩⟩
          simp
        · simp [subscribe, hconn, hn, hh1, hok] at h
  | false =>
      by_cases hh : s.hasItem n
      · have hh1 : s.monitoredItems.any (fun p => p.1 == n) = true := hh
        simp [subscribe, hconn, hn, hh1] at h
        subst h
        exact ⟨rfl, hn, hh1, Or.inl rfl⟩
      · have hh1 : s.monitoredItems.any (fun p => p.1 == n) = false := Bool.eq_false_iff.mpr hh
        by_cases hok : serverOk n
        · simp [subscribe, hconn, hn, hh1, hok] at h
          subst h
          refine ⟨hconn.symm, ?_, ?_, Or.inr ⟨hh1, rfl⟩⟩
          · exact hn
          · simp
        · simp [subscribe, hconn, hn, hh1, hok] at h

/-- When the node is already monitored (and a subscription object exists),
`subscribe` observes the existing entry and returns the state unchanged. -/
theorem subscribe_noop_of_hasItem (serverOk : String → Bool) (n : String) (s : ManagerState)
    (hconn : s.connected = true) (hs : s.subscription.isNone = false)
    (hh : s.hasItem n = true) : subscribe serverOk n s = Except.ok s := by
  have hh1 : s.monitoredItems.any (fun p => p.1 == n) = true := hh
  simp [subscribe, hconn, hs, hh1]

/-- **C3.** For every node identifier `n`, calling `subscribe(n)` twice in a
row results in exactly one MonitoredItem for `n`: whenever the first call
succeeds (from any state whose map keys are unique, as a JS `Map` guarantees),
the second call observes the existing entry and returns the state unchanged
without creating another monitored item, and the resulting map holds exactly
one entry keyed `n`. -/
theorem subscribe_idempotent (serverOk : String → Bool) (n : String) (s s1 : ManagerState)
    (hnd : (s.monitoredItems.map Prod.fst).Nodup)
    (h1 : subscribe serverOk n s = Except.ok s1) :
    subscribe serverOk n s1 = Except.ok s1 ∧
    (s1.monitoredItems.map Prod.fst).count n = 1 := by
  have hconn := subscribe_connected_of_ok serverOk n s s1 h1
  obtain ⟨hc1, hs1, hh1, hitems⟩ := subscribe_ok_spec serverOk n s s1 h1
  refine ⟨subscribe_noop_of_hasItem serverOk n s1 (hc1.trans hconn) hs1 hh1, ?_⟩
  rcases hitems with heq | ⟨hnot, heq⟩
  · have hmem := (hasItem_iff_mem s1 n).mp hh1
    rw [heq] at hmem ⊢
    exact List.count_eq_one_of_mem hnd hmem
  · have hnotmem : n ∉ s.monitoredItems.map Prod.fst := by
      intro hm
      have h2 := (hasItem_iff_mem s n).mpr hm
      rw [hnot] at h2
      exact Bool.false_ne_true h2
    rw [heq]
    simp [List.count_append, List.count_eq_zero_of_not_mem hnotmem]

/-- Witness for C3: from a fresh connected manager, two subscribes to the same
node leave exactly one monitored item. -/
theorem subscribe_idempotent_witness :
    subscribe (fun _ => true) "ns=1;s=A"
        ⟨true, some ⟨false⟩, [("ns=1;s=A", ⟨false⟩)], ["ns=1;s=A"], ⟨1000, 500, 10⟩⟩ =
      Except.ok ⟨true, some ⟨false⟩, [("ns=1;s=A", ⟨false⟩)], ["ns=1;s=A"], ⟨1000, 500, 10⟩⟩ ∧
    (((⟨true, some ⟨false⟩, [("ns=1;s=A", ⟨false⟩)], ["ns=1;s=A"],
        ⟨1000, 500, 10⟩⟩ : ManagerState)).monitoredItems.map Prod.fst).count "ns=1;s=A" = 1 :=
  subscribe_idempotent (fun _ => true) "ns=1;s=A"
    ⟨true, some ⟨false⟩, [], [], ⟨1000, 500, 10⟩⟩
    ⟨true, some ⟨false⟩, [("ns=1;s=A", ⟨false⟩)], ["ns=1;s=A"], ⟨1000, 500, 10⟩⟩
    (by simp) (by rfl)

/-! ## Claim C2 -/

/-- The `onConnectionLost` handler registered by the connect route: it only
broadcasts a `connection_status` message; the SubscriptionManager is not
touched. -/
def onConnectionLost (m : ManagerState) : ManagerState × List WsMessage :=
  (m, [WsMessage.connectionStatus
        { connected := false, reconnecting := some true }])

/-- The `onReconnected` handler registered by the connect route: it only
broadcasts a `connection_status` message; the SubscriptionManager is not
touched (in particular nothing is resubscribed). -/
def onReconnected (endpoint : String) (m : ManagerState) : ManagerState × List WsMessage :=
  (m, [WsMessage.connectionStatus
        { connected := true, endpoint := some endpoint, reconnected := some true }])

/-- The resubscribe loop of `POST /api/connections/:id/connect`: subscribe
each tag flagged `isSubscribed`, each attempt isolated by a
caught-and-logged error (`.catch`). -/
def resubscribeAll (serverOk : String → Bool) (tags : List Tag) (m : ManagerState) :
    ManagerState :=
  (tags.filter (fun t => t.isSubscribed)).foldl
    (fun m tag =>
      match subscribe serverOk tag.nodeId m with
      | Except.ok m1 => m1
      | Except.error _ => m) m

/-- **C2 counterexample.** The claim says that after a connection-lost event
followed by a successful reconnect the Subscription Manager is told to
resubscribe all tags flagged `isSubscribed`.  The registered `onReconnected`
handler only broadcasts a status message: with a tag flagged `isSubscribed`
and no monitored item, the lost/reconnected sequence still leaves the tag
without an active MonitoredItem. -/
theorem reconnect_counterexample :
    (⟨1, "ns=1;s=Level", true⟩ : Tag).isSubscribed = true ∧
    ((onReconnected "opc.tcp://localhost:4840"
        (onConnectionLost ⟨true, some ⟨false⟩, [], [], ⟨1000, 500, 10⟩⟩).1).1).hasItem
      "ns=1;s=Level" = false ∧
    (onReconnected "opc.tcp://localhost:4840"
        (onConnectionLost ⟨true, some ⟨false⟩, [], [], ⟨1000, 500, 10⟩⟩).1).2 =
      [WsMessage.connectionStatus
        { connected := true, endpoint := some "opc.tcp://localhost:4840",
          reconnected := some true }] := by
  refine ⟨rfl, rfl, rfl⟩

/-- When the client is connected and the server accepts the node, `subscribe`
cannot fail. -/
theorem subscribe_ok_total (serverOk : String → Bool) (n : String) (s : ManagerState)
    (hc : s.connected = true) (hok : serverOk n = true) :
    ∃ s1, subscribe serverOk n s = Except.ok s1 := by
  cases hn : s.subscription.isNone with
  | true =>
      by_cases hh : s.hasItem n
      · have hh1 : s.monitoredItems.any (fun p => p.1 == n) = true := hh
        exact ⟨{ s with subscription := some ⟨false⟩ }, by simp [subscribe, hc, hn, hh1]⟩
      · have hh1 : s.monitoredItems.any (fun p => p.1 == n) = false := Bool.eq_false_iff.mpr hh
        exact ⟨{ s with subscription := some ⟨false⟩
                        monitoredItems := s.monitoredItems ++ [(n, ⟨false⟩)]
                        protoLive := s.protoLive ++ [n] },
          by simp [subscribe, hc, hn, hh1, hok]⟩
  | false =>
      by_cases hh : s.hasItem n
      · have hh1 : s.monitoredItems.any (fun p => p.1 == n) = true := hh
        exact ⟨s, by simp [subscribe, hc, hn, hh1]⟩
      · have hh1 : s.monitoredItems.any (fun p => p.1 == n) = false := Bool.eq_false_iff.mpr hh
        exact ⟨{ s with monitoredItems := s.monitoredItems ++ [(n, ⟨false⟩)]
                        protoLive := s.protoLive ++ [n] },
          by simp [subscribe, hc, hn, hh1, hok]⟩

/-- A successful `subscribe n` makes exactly the key `n` newly monitored. -/
theorem subscribe_hasItem_after (serverOk : String → Bool) (n : String) (s s1 : ManagerState)
    (h : subscribe serverOk n s = Except.ok s1) (m : String) :
    s1.hasItem m = (s.hasItem m || (n == m)) := by
  obtain ⟨_, _, hh1, hitems⟩ := subscribe_ok_spec serverOk n s s1 h
  rcases hitems with heq | ⟨hnot, heq⟩
  · have hsn : s.hasItem n = true := by
      rw [hasItem_def, ← heq]
      exact hh1
    rw [hasItem_def, heq, ← hasItem_def s m]
    cases hnm : (n == m) with
    | false => rw [Bool.or_false]
    | true =>
        obtain rfl : n = m := eq_of_beq hnm
        rw [Bool.or_true]
        exact hsn
  · rw [hasItem_def, heq]
    simp [List.any_append]

/-- Folding the isolated per-tag subscribe step over a tag list monitors
exactly the prior keys plus the node identifiers in the list. -/
theorem foldl_subscribe_hasItem (serverOk : String → Bool) (hok : ∀ n, serverOk n = true)
    (ts : List Tag) :
    ∀ m0 : ManagerState, m0.connected = true → ∀ x,
      ((ts.foldl (fun m tag =>
          match subscribe serverOk tag.nodeId m with
          | Except.ok m1 => m1
          | Except.error _ => m) m0)).hasItem x =
        (m0.hasItem x || ts.any (fun t => t.nodeId == x)) := by
  induction ts with
  | nil =>
      intro m0 _ x
      simp
  | cons t ts ih =>
      intro m0 hc x
      obtain ⟨m1, hm1⟩ := subscribe_ok_total serverOk t.nodeId m0 hc (hok t.nodeId)
      have hc1 : m1.connected = true :=
        ((subscribe_ok_spec serverOk t.nodeId m0 m1 hm1).1).trans hc
      have hx := subscribe_hasItem_after serverOk t.nodeId m0 m1 hm1 x
      simp only [List.foldl_cons, hm1]
      rw [ih m1 hc1 x, hx]
      simp [Bool.or_assoc]

/-- `(l.filter p).any q = l.any (p && q)`. -/
theorem any_filter_eq {α : Type} (p q : α → Bool) (l : List α) :
    (l.filter p).any q = l.any (fun a => p a && q a) := by
  induction l with
  | nil => rfl
  | cons a l ih =>
      by_cases hp : p a <;> simp [List.filter_cons, hp, ih]

/-- **C2 (amended).** The resubscribe-everything step runs only in the
explicit connect operation, not in the `onReconnected` handler (see the
counterexample).  There, starting from the freshly created manager (empty
monitored-items map) with a connected client and a server accepting every
node, the loop gives a node identifier a MonitoredItem exactly when some tag
flagged `isSubscribed` carries it — so every `isSubscribed` tag ends with an
active MonitoredItem and no other key is monitored. -/
theorem resubscribeAll_spec (serverOk : String → Bool) (hok : ∀ n, serverOk n = true)
    (tags : List Tag) (m0 : ManagerState) (hc : m0.connected = true)
    (hempty : m0.monitoredItems = []) (x : String) :
    (resubscribeAll serverOk tags m0).hasItem x =
      tags.any (fun t => t.isSubscribed && t.nodeId == x) := by
  unfold resubscribeAll
  rw [foldl_subscribe_hasItem serverOk hok _ m0 hc x]
  have h0 : m0.hasItem x = false := by simp [hempty]
  rw [h0, Bool.false_or, any_filter_eq]

/-- Witness for C2 (amended): with one subscribed and one unsubscribed tag,
the connect-route loop monitors exactly the subscribed tag's node. -/
theorem resubscribeAll_spec_witness :
    (resubscribeAll (fun _ => true) [⟨1, "ns=1;s=A", true⟩, ⟨2, "ns=1;s=B", false⟩]
        ⟨true, some ⟨false⟩, [], [], ⟨1000, 500, 10⟩⟩).hasItem "ns=1;s=A" = true ∧
    (resubscribeAll (fun _ => true) [⟨1, "ns=1;s=A", true⟩, ⟨2, "ns=1;s=B", false⟩]
        ⟨true, some ⟨false⟩, [], [], ⟨1000, 500, 10⟩⟩).hasItem "ns=1;s=B" = false := by
  constructor
  · rw [resubscribeAll_spec (fun _ => true) (fun _ => rfl) _ _ rfl rfl]
    rfl
  · rw [resubscribeAll_spec (fun _ => true) (fun _ => rfl) _ _ rfl rfl]
    rfl

/-! ## Claim C4 -/

/-- **C4 counterexample.** The claim says `clear()` always leaves a null
subscription object even when terminating it raises an error.  On a state
whose subscription handle throws on `terminate()`, the `catch` in `clear`
runs before the `this.subscription = null` assignment, so the handle is
retained: the map is emptied but the subscription is not null. -/
theorem clear_counterexample :
    (clear ⟨false, some ⟨true⟩, [("ns=1;s=A", ⟨true⟩)], ["ns=1;s=A"],
        ⟨1000, 500, 10⟩⟩).monitoredItems = [] ∧
    (clear ⟨false, some ⟨true⟩, [("ns=1;s=A", ⟨true⟩)], ["ns=1;s=A"],
        ⟨1000, 500, 10⟩⟩).subscription = some ⟨true⟩ := by
  constructor <;> rfl

/-- **C4 (amended).** `clear()` always leaves zero MonitoredItems, regardless
of prior state and of errors raised while terminating items; the subscription
field ends null whenever it was already null or its `terminate()` does not
raise, but a raising `terminate()` leaves the old handle in place. -/
theorem clear_spec (s : ManagerState) :
    (clear s).monitoredItems = [] ∧
    (s.subscription = none → (clear s).subscription = none) ∧
    (∀ sub, s.subscription = some sub → sub.terminateThrows = false →
      (clear s).subscription = none) ∧
    (∀ sub, s.subscription = some sub → sub.terminateThrows = true →
      (clear s).subscription = some sub) := by
  cases hsub : s.subscription with
  | none => simp [clear, hsub]
  | some sub =>
      cases ht : sub.terminateThrows with
      | false => simp [clear, hsub, ht]
      | true => simp [clear, hsub, ht]

/-- Witness for C4: clearing a manager with one healthy item and a healthy
subscription leaves an empty map and a null subscription. -/
theorem clear_spec_witness :
    (clear ⟨true, some ⟨false⟩, [("ns=1;s=A", ⟨false⟩)], ["ns=1;s=A"],
        ⟨1000, 500, 10⟩⟩).monitoredItems = [] ∧
    (clear ⟨true, some ⟨false⟩, [("ns=1;s=A", ⟨false⟩)], ["ns=1;s=A"],
        ⟨1000, 500, 10⟩⟩).subscription = none :=
  ⟨(clear_spec _).1, (clear_spec _).2.2.1 ⟨false⟩ rfl rfl⟩

/-! ## Claim C5 -/

/-- **C5 counterexample.** The claim says `disconnect()` tolerates an error in
either step and always ends Disconnected (connected flag false).  When the
transport `client.disconnect()` raises, the session handle has already been
nulled, so the `if (!this.session) throw err` guard rethrows: the call
propagates the error and the `connected` flag stays `true`. -/
theorem disconnect_counterexample :
    (disconnect ⟨some ⟨true⟩, some ⟨false⟩, true⟩).2 =
      Except.error "Erro ao desconectar cliente OPC UA" ∧
    (disconnect ⟨some ⟨true⟩, some ⟨false⟩, true⟩).1.connected = true := by
  constructor <;> rfl

/-- **C5 (amended).** `disconnect()` returns immediately when neither handle
exists; it closes the session then the transport, tolerating session-close
errors (they are logged and do not abort the transport step); when the
transport closes without raising it always ends Disconnected (connected flag
false, session handle null) and is idempotent; a transport-close error is
rethrown and leaves the connected flag unchanged (the session handle is
already null). -/
theorem disconnect_spec (s : ClientState) :
    (s.client = none → s.session = none → disconnect s = (s, Except.ok ())) ∧
    (∀ c, s.client = some c → c.disconnectThrows = false →
      disconnect s = (⟨s.client, none, false⟩, Except.ok ())) ∧
    (∀ c, s.client = some c → c.disconnectThrows = true →
      disconnect s = (⟨s.client, none, s.connected⟩,
        Except.error "Erro ao desconectar cliente OPC UA")) ∧
    (∀ c, s.client = some c → c.disconnectThrows = false →
      disconnect (disconnect s).1 = ((disconnect s).1, Except.ok ())) := by
  cases hc : s.client with
  | none =>
      refine ⟨fun _ h2 => by simp [disconnect, hc, h2], ?_, ?_, ?_⟩ <;>
        exact fun c hcc _ => absurd hcc (by simp)
  | some c =>
      refine ⟨fun h1 _ => absurd h1 (by simp), ?_, ?_, ?_⟩
      · intro c' hcc ht
        obtain rfl : c = c' := by injection hcc
        simp [disconnect, hc, ht]
      · intro c' hcc ht
        obtain rfl : c = c' := by injection hcc
        simp [disconnect, hc, ht]
      · intro c' hcc ht
        obtain rfl : c = c' := by injection hcc
        simp [disconnect, hc, ht]

/-- Witness for C5: a raising session close is tolerated (ending
Disconnected), and a second call on an already-disconnected state is a no-op
success. -/
theorem disconnect_spec_witness :
    disconnect ⟨some ⟨false⟩, some ⟨true⟩, true⟩ = (⟨some ⟨false⟩, none, false⟩, Except.ok ()) ∧
    disconnect ⟨some ⟨false⟩, none, false⟩ = (⟨some ⟨false⟩, none, false⟩, Except.ok ()) :=
  ⟨(disconnect_spec ⟨some ⟨false⟩, some ⟨true⟩, true⟩).2.1 ⟨false⟩ rfl rfl,
   (disconnect_spec ⟨some ⟨false⟩, none, false⟩).2.1 ⟨false⟩ rfl rfl⟩

/-! ## Claim C7 -/

/-- Accumulating a window of tuples: the batch grows in arrival order and the
timer is armed as soon as any tuple has been appended. -/
theorem foldl_handleValueChange (cs : List ChangeEvent) (b : List ChangeEvent) (armed : Bool) :
    cs.foldl (fun st c => handleValueChange c st) ⟨b, armed⟩ =
      ⟨b ++ cs, armed || !cs.isEmpty⟩ := by
  induction cs generalizing b armed with
  | nil => simp
  | cons c cs ih =>
      have hstep : handleValueChange c ⟨b, armed⟩ = ⟨b ++ [c], true⟩ := by
        cases armed <;> simp [handleValueChange]
      rw [List.foldl_cons, hstep, ih]
      simp

/-- **C7.** For tuples arriving within one accumulation window (starting from
an empty, unarmed batch), the timer is armed by the first arrival, and the
flush broadcasts exactly one `value_changes_batch` message containing all the
tuples in arrival order, after which the batch is empty and the timer disarmed. -/
theorem valueChangeBatch_window_correct (cs : List ChangeEvent) (h : cs ≠ []) :
    (cs.foldl (fun st c => handleValueChange c st) ⟨[], false⟩).batchTimeoutArmed = true ∧
    sendBatchedValueChanges (cs.foldl (fun st c => handleValueChange c st) ⟨[], false⟩) =
      ([WsMessage.valueChangesBatch cs], ⟨[], false⟩) := by
  have hfold := foldl_handleValueChange cs [] false
  rw [hfold]
  have hne : cs.isEmpty = false := by
    cases cs with
    | nil => exact absurd rfl h
    | cons a l => rfl
  constructor
  · simp [hne]
  · simp [sendBatchedValueChanges, hne]

/-- Witness for C7: a two-tuple window produces a single batched message with
both tuples in order. -/
theorem valueChangeBatch_window_correct_witness :
    sendBatchedValueChanges
      ([⟨"a", JsValue.num 1, "Double", 10⟩, ⟨"b", JsValue.num 2, "Double", 11⟩].foldl
        (fun st c => handleValueChange c st) ⟨[], false⟩) =
      ([WsMessage.valueChangesBatch
          [⟨"a", JsValue.num 1, "Double", 10⟩, ⟨"b", JsValue.num 2, "Double", 11⟩]],
        ⟨[], false⟩) :=
  (valueChangeBatch_window_correct
    [⟨"a", JsValue.num 1, "Double", 10⟩, ⟨"b", JsValue.num 2, "Double", 11⟩]
    (by decide)).2

/-! ## Claim C10 -/

/-- **C10.** When `setDefaultSettings` runs while a protocol subscription
object exists (whose `terminate()` does not raise) and the client is
connected, it terminates that subscription — leaving no live protocol-level
monitored item — but never touches the monitored-items map; consequently every
previously subscribed node identifier is still a key, and a subsequent
`subscribe(n)` observes the stale entry and returns at once without creating a
new monitored item. -/
theorem setDefaultSettings_frame (ns : SubscriptionSettings) (s : ManagerState)
    (sub : ClientSubscription) (hsub : s.subscription = some sub)
    (ht : sub.terminateThrows = false) (hc : s.connected = true) :
    (setDefaultSettings ns s).monitoredItems = s.monitoredItems ∧
    (setDefaultSettings ns s).protoLive = [] ∧
    ∀ serverOk n, s.hasItem n = true →
      subscribe serverOk n (setDefaultSettings ns s) = Except.ok (setDefaultSettings ns s) := by
  have hs1 : setDefaultSettings ns s =
      ManagerState.mk s.connected (some ⟨false⟩) s.monitoredItems [] ns := by
    simp [setDefaultSettings, hsub, ht, hc]
  rw [hs1]
  refine ⟨rfl, rfl, ?_⟩
  intro serverOk n hn
  exact subscribe_noop_of_hasItem serverOk n _ hc rfl hn

/-- Witness for C10: after a settings change, the stale key is still present,
nothing is protocol-live, and a re-subscribe is a no-op. -/
theorem setDefaultSettings_frame_witness :
    (setDefaultSettings ⟨2000, 1000, 5⟩
        ⟨true, some ⟨false⟩, [("ns=1;s=A", ⟨false⟩)], ["ns=1;s=A"],
          ⟨1000, 500, 10⟩⟩).monitoredItems = [("ns=1;s=A", ⟨false⟩)] ∧
    (setDefaultSettings ⟨2000, 1000, 5⟩
        ⟨true, some ⟨false⟩, [("ns=1;s=A", ⟨false⟩)], ["ns=1;s=A"],
          ⟨1000, 500, 10⟩⟩).protoLive = [] ∧
    subscribe (fun _ => true) "ns=1;s=A"
        (setDefaultSettings ⟨2000, 1000, 5⟩
          ⟨true, some ⟨false⟩, [("ns=1;s=A", ⟨false⟩)], ["ns=1;s=A"], ⟨1000, 500, 10⟩⟩) =
      Except.ok (setDefaultSettings ⟨2000, 1000, 5⟩
          ⟨true, some ⟨false⟩, [("ns=1;s=A", ⟨false⟩)], ["ns=1;s=A"], ⟨1000, 500, 10⟩⟩) := by
  obtain ⟨h1, h2, h3⟩ := setDefaultSettings_frame ⟨2000, 1000, 5⟩
    ⟨true, some ⟨false⟩, [("ns=1;s=A", ⟨false⟩)], ["ns=1;s=A"], ⟨1000, 500, 10⟩⟩
    ⟨false⟩ rfl rfl rfl
  exact ⟨h1, h2, h3 (fun _ => true) "ns=1;s=A" (by rfl)⟩

/-! ## Claim C6 — Address-space browsing (client.ts lines 327-498) -/

/-- Substring test used for `toString().includes("FolderType")`. -/
def containsSubstr (hay needle : String) : Bool :=
  (List.range (hay.data.length + 1)).any (fun i => needle.data.isPrefixOf (hay.data.drop i))

/-- Modelled from the spec: the protocol stack's node-class enumeration (the
data model's "node class (Object/Variable/Method/other)"), a dependency
outside `src/`.  node-opcua assigns the OPC UA numeric values Object = 1,
Variable = 2, Method = 4, ObjectType = 8, VariableType = 16,
ReferenceType = 32, DataType = 64, View = 128. -/
inductive NodeClass where
  | unspecified
  | object
  | variableNode
  | method
  | objectType
  | variableType
  | referenceType
  | dataType
  | view
  deriving DecidableEq, Repr

/-- `reference.nodeClass.toString()`: the enumeration is numeric at runtime,
so stringification yields the decimal value. -/
def NodeClass.toStringJs : NodeClass → String
  | .unspecified => "0"
  | .object => "1"
  | .variableNode => "2"
  | .method => "4"
  | .objectType => "8"
  | .variableType => "16"
  | .referenceType => "32"
  | .dataType => "64"
  | .view => "128"

/-- The slice of a browse `ReferenceDescription` read by the normalization
loop: node id and browse name (already stringified), the optional display-name
text, the node class, and the stringified type definition when present. -/
structure ReferenceDescription where
  nodeId : String
  browseName : String
  displayNameText : Option String
  nodeClass : NodeClass
  typeDefinition : Option String
  deriving DecidableEq, Repr

/-- The normalized `OpcUaNode` record produced per reference. -/
structure OpcUaNode where
  nodeId : String
  browseName : String
  displayName : String
  nodeClass : String
  dataType : Option String
  isFolder : Bool
  deriving DecidableEq, Repr

/-- Per-reference normalization shared by `OpcUaClient.browse` and
`OpcUaClient.browseNext`: display name falls back to the browse name; the
folder flag is set when the node-class string is `"1"` or `"3"` or the type
definition contains `"FolderType"`; for Variable nodes (`"2"`) the DataType
attribute is fetched best-effort through `readDataType` (`none` models a
failed or non-Good read, which must not fail the browse). -/
def browseRefToNode (readDataType : String → Option String) (ref : ReferenceDescription) :
    OpcUaNode :=
  let nodeIdStr := ref.nodeId
  let browseNameStr := ref.browseName
  let displayNameStr := ref.displayNameText.getD browseNameStr
  let nodeClassStr := ref.nodeClass.toStringJs
  let isFolder0 := nodeClassStr == "1" || nodeClassStr == "3"
  let isFolder := isFolder0 ||
    (match ref.typeDefinition with
     | some td => containsSubstr td "FolderType"
     | none => false)
  let dataType := if nodeClassStr == "2" then readDataType nodeIdStr else none
  { nodeId := nodeIdStr
    browseName := browseNameStr
    displayName := displayNameStr
    nodeClass := nodeClassStr
    dataType := dataType
    isFolder := isFolder }

/-- The browse result loop: one node pushed per reference, in server order. -/
def browseNodes (readDataType : String → Option String)
    (refs : List ReferenceDescription) : List OpcUaNode :=
  refs.foldl (fun nodes ref => nodes ++ [browseRefToNode readDataType ref]) []

/-- Folder flag as the claim words it: node class in {Object, ObjectType}, or
the type-definition name contains "FolderType". -/
def specFolderFlag (ref : ReferenceDescription) : Bool :=
  (ref.nodeClass == NodeClass.object || ref.nodeClass == NodeClass.objectType) ||
  (match ref.typeDefinition with
   | some td => containsSubstr td "FolderType"
   | none => false)

/-- The push loop preserves the server-returned reference order (no sort). -/
theorem browseNodes_eq_map (readDataType : String → Option String)
    (refs : List ReferenceDescription) :
    browseNodes readDataType refs = refs.map (browseRefToNode readDataType) := by
  unfold browseNodes
  suffices h : ∀ acc, refs.foldl (fun nodes ref => nodes ++ [browseRefToNode readDataType ref]) acc
      = acc ++ refs.map (browseRefToNode readDataType) by
    simpa using h []
  induction refs with
  | nil => intro acc; simp
  | cons r rs ih => intro acc; simp [ih]

/-- **C6 (code bug).** `browse` normalizes an ObjectType reference
(node-opcua numeric value 8, so `nodeClass.toString()` is `"8"`) whose type
definition does not mention FolderType to `isFolder = false`, because the code
tests `nodeClassStr === "1" || nodeClassStr === "3"` — its own comment says
`NodeClass.Object = 1, NodeClass.ObjectType = 3`, but no node class has the
value 3 — while the claim (and the comment's evident intent) requires
ObjectType nodes to be folders. -/
theorem browse_isFolder_objectType_bug :
    (browseRefToNode (fun _ => none)
        ⟨"ns=1;i=2000", "MachineType", some "MachineType", NodeClass.objectType,
          some "ns=0;i=58"⟩).isFolder = false ∧
    specFolderFlag
        ⟨"ns=1;i=2000", "MachineType", some "MachineType", NodeClass.objectType,
          some "ns=0;i=58"⟩ = true ∧
    (browseRefToNode (fun _ => none)
        ⟨"ns=1;i=2000", "MachineType", some "MachineType", NodeClass.objectType,
          some "ns=0;i=58"⟩).nodeClass = "8" := by
  refine ⟨by decide, by decide, by decide⟩

/-! ## Claim C9 — SubscriptionSettings storage (subscription.ts lines 1762-1798) -/

/-- A persisted `SubscriptionSetting` row. -/
structure SettingRow where
  id : Nat
  publishingInterval : Nat
  samplingInterval : Nat
  queueSize : Nat
  isDefault : Bool
  deriving DecidableEq, Repr

/-- The `InsertSubscriptionSettings & { isDefault? }` creation payload. -/
structure InsertSubscriptionSettings where
  publishingInterval : Nat
  samplingInterval : Nat
  queueSize : Nat
  isDefault : Bool
  deriving DecidableEq, Repr

/-- A `Partial<InsertSubscriptionSettings>` update payload. -/
structure SettingsPatch where
  publishingInterval : Option Nat := none
  samplingInterval : Option Nat := none
  queueSize : Option Nat := none
  isDefault : Option Bool := none
  deriving DecidableEq, Repr

/-- Prisma `update` data application: present fields replace row fields. -/
def applyPatch (p : SettingsPatch) (r : SettingRow) : SettingRow :=
  { r with
    publishingInterval := p.publishingInterval.getD r.publishingInterval
    samplingInterval := p.samplingInterval.getD r.samplingInterval
    queueSize := p.queueSize.getD r.queueSize
    isDefault := p.isDefault.getD r.isDefault }

/-- `PrismaStorage.createSubscriptionSettings`: when the new row is flagged
default, first `updateMany({where: {isDefault: true}, data: {isDefault:
false}})` clears every currently-default row; then the row is created. -/
def createSubscriptionSettings (db : List SettingRow)
    (settings : InsertSubscriptionSettings) (newId : Nat) : List SettingRow :=
  let db1 :=
    if settings.isDefault then
      db.map (fun r => if r.isDefault then { r with isDefault := false } else r)
    else db
  db1 ++ [⟨newId, settings.publishingInterval, settings.samplingInterval,
           settings.queueSize, settings.isDefault⟩]

/-- `PrismaStorage.updateSubscriptionSettings`: a plain
`prisma.subscriptionSetting.update` of the addressed row; no other row is
touched. -/
def updateSubscriptionSettings (db : List SettingRow) (id : Nat) (p : SettingsPatch) :
    List SettingRow :=
  db.map (fun r => if r.id = id then applyPatch p r else r)

/-- Number of rows flagged default. -/
def countDefault (db : List SettingRow) : Nat :=
  (db.filter (fun r => r.isDefault)).length

/-- **C9 counterexample.** The claim says updating an existing row to
`isDefault = true` leaves at most one row flagged default.  With row 1 already
the default, updating row 2 to default leaves two default rows: the update
path never clears the other rows' flags. -/
theorem settings_update_counterexample :
    countDefault (updateSubscriptionSettings
      [⟨1, 1000, 500, 10, true⟩, ⟨2, 2000, 1000, 5, false⟩] 2
      { isDefault := some true }) = 2 := by
  decide

/-- **C9 (amended).** Creating a settings row with `isDefault = true` first
clears the default flag of every previously-default row, so exactly one row is
flagged default afterwards; the update path, by contrast, does not clear other
rows' flags and can leave two rows flagged default (see the counterexample). -/
theorem createSubscriptionSettings_default_unique (db : List SettingRow)
    (settings : InsertSubscriptionSettings) (newId : Nat)
    (hd : settings.isDefault = true) :
    countDefault (createSubscriptionSettings db settings newId) = 1 := by
  unfold createSubscriptionSettings countDefault
  rw [hd]
  have hclear : ∀ l : List SettingRow,
      (l.map (fun r => if r.isDefault then { r with isDefault := false } else r)).filter
        (fun r => r.isDefault) = [] := by
    intro l
    induction l with
    | nil => rfl
    | cons a l ih =>
        by_cases ha : a.isDefault <;> simp [ha, ih]
  simp [List.filter_append, hclear, hd]

/-- Witness for C9 (amended): creating a second default row leaves exactly one
default. -/
theorem createSubscriptionSettings_default_unique_witness :
    countDefault (createSubscriptionSettings [⟨1, 1000, 500, 10, true⟩]
      ⟨2000, 1000, 5, true⟩ 2) = 1 :=
  createSubscriptionSettings_default_unique [⟨1, 1000, 500, 10, true⟩]
    ⟨2000, 1000, 5, true⟩ 2 rfl

/-! ## Claim C8 — Correlation registry (NavigationContext.tsx lines 311-424)

The `responseHandlers` registry is a JS object keyed by requestId (for browse
requests the derived key `browse_<nodeId>`), each value holding the promise
continuations and a creation timestamp.  The embedding keys each registration
with a fresh serial number so that individual PendingRequests can be tracked
through overwrites, and logs every continuation invocation (`resolve` /
`reject`) against that serial. -/

/-- Which continuation of a PendingRequest was invoked. -/
inductive SettleKind where
  | resolved
  | rejected
  deriving DecidableEq, Repr

/-- A registered response handler: registration serial (the identity of the
PendingRequest), handler id (requestId), and creation timestamp (ms). -/
structure PendingEntry where
  serial : Nat
  id : String
  timestamp : Nat
  deriving DecidableEq, Repr

/-- The registry plus the log of continuation invocations. -/
structure CorrState where
  pending : List PendingEntry
  settled : List (Nat × SettleKind)
  nextSerial : Nat
  deriving DecidableEq, Repr

/-- Events acting on the registry: `browseNodes` registering a handler under
`browse_<nodeId>` (the object spread overwrites an existing key), an inbound
`browse_result`, an inbound `error` carrying a requestId, and a tick of the
5-second expiry sweep at wall-clock `now`. -/
inductive CorrEvent where
  | register (id : String) (now : Nat)
  | browseResult (nodeId : String)
  | errorResponse (requestId : String)
  | sweep (now : Nat)
  deriving DecidableEq, Repr

/-- One registry transition, from the source: registration replaces any entry
under the same key without invoking it; a `browse_result` / `error` response
resolves / rejects the matching handler and deletes it (no handler: ignored);
the sweep resolves every handler older than 30s with `[]` when its id starts
with `browse_`, rejects it with a timeout error otherwise, and deletes it. -/
def corrStep (s : CorrState) : CorrEvent → CorrState
  | CorrEvent.register id now =>
      { pending := s.pending.filter (fun e => e.id != id) ++ [⟨s.nextSerial, id, now⟩]
        settled := s.settled
        nextSerial := s.nextSerial + 1 }
  | CorrEvent.browseResult nodeId =>
      let hid := "browse_" ++ nodeId
      match s.pending.find? (fun e => e.id == hid) with
      | none => s
      | some e =>
          { s with
            pending := s.pending.filter (fun e1 => e1.id != hid)
            settled := s.settled ++ [(e.serial, SettleKind.resolved)] }
  | CorrEvent.errorResponse requestId =>
      match s.pending.find? (fun e => e.id == requestId) with
      | none => s
      | some e =>
          { s with
            pending := s.pending.filter (fun e1 => e1.id != requestId)
            settled := s.settled ++ [(e.serial, SettleKind.rejected)] }
  | CorrEvent.sweep now =>
      { s with
        pending := s.pending.filter (fun e => !(30000 < now - e.timestamp : Bool))
        settled := s.settled ++
          (s.pending.filter (fun e => (30000 < now - e.timestamp : Bool))).map
            (fun e => (e.serial,
              if "browse_".isPrefixOf e.id then SettleKind.resolved
              else SettleKind.rejected)) }

/-- Run a trace of registry events from the empty registry. -/
def corrRun (events : List CorrEvent) : CorrState :=
  events.foldl corrStep ⟨[], [], 0⟩

/-- Run a trace of registry events from a given state. -/
def corrRunFrom (s : CorrState) (events : List CorrEvent) : CorrState :=
  events.foldl corrStep s

/-- Number of continuation invocations recorded for the request `k`. -/
def settledCount (s : CorrState) (k : Nat) : Nat :=
  s.settled.countP (fun p => p.1 == k)

/-- **C8 counterexample.** Two overlapping `browseNodes` calls for the same
node register under the same derived key `browse_<nodeId>`: the second
registration overwrites the first handler without invoking it.  After the
matching response and an expiry sweep far past the 30s timeout, only the
second request (serial 1) was ever resolved, the registry is empty, and
request serial 0 was neither resolved nor rejected — refuting "every
PendingRequest is resolved or rejected exactly once". -/
theorem pendingRequest_counterexample :
    corrRun [CorrEvent.register "browse_ns=1;s=A" 0,
             CorrEvent.register "browse_ns=1;s=A" 10,
             CorrEvent.browseResult "ns=1;s=A",
             CorrEvent.sweep 40000] =
      ⟨[], [(1, SettleKind.resolved)], 2⟩ ∧
    settledCount (corrRun [CorrEvent.register "browse_ns=1;s=A" 0,
             CorrEvent.register "browse_ns=1;s=A" 10,
             CorrEvent.browseResult "ns=1;s=A",
             CorrEvent.sweep 40000]) 0 = 0 := by
  constructor <;> rfl

/-- Well-formedness of the registry: every pending serial is below the
counter, serials are unique, and at most one handler exists per key (the
registry is a JS object keyed by requestId). -/
def CorrInv (s : CorrState) : Prop :=
  (∀ e ∈ s.pending, e.serial < s.nextSerial) ∧
  (s.pending.map PendingEntry.serial).Nodup ∧
  (s.pending.map PendingEntry.id).Nodup

/-- Filtering the pending list preserves all well-formedness components. -/
theorem corrInv_filter (s : CorrState) (p : PendingEntry → Bool)
    (newSettled : List (Nat × SettleKind)) (h : CorrInv s) :
    CorrInv ⟨s.pending.filter p, newSettled, s.nextSerial⟩ := by
  obtain ⟨hlt, hsn, hid⟩ := h
  refine ⟨?_, ?_, ?_⟩
  · intro e he
    exact hlt e (List.mem_of_mem_filter he)
  · exact ((List.filter_sublist _).map _).nodup hsn
  · exact ((List.filter_sublist _).map _).nodup hid

/-- Every registry transition preserves well-formedness. -/
theorem corrStep_inv (s : CorrState) (ev : CorrEvent) (h : CorrInv s) :
    CorrInv (corrStep s ev) := by
  obtain ⟨hlt, hsn, hid⟩ := h
  cases ev with
  | register id now =>
      simp only [corrStep]
      refine ⟨?_, ?_, ?_⟩
      · intro e he
        rcases List.mem_append.mp he with h1 | h1
        · exact Nat.lt_succ_of_lt (hlt e (List.mem_of_mem_filter h1))
        · simp only [List.mem_singleton] at h1
          subst h1
          exact Nat.lt_succ_self _
      · rw [List.map_append, List.nodup_append]
        refine ⟨((List.filter_sublist _).map _).nodup hsn, List.nodup_singleton _, ?_⟩
        intro a ha hb
        simp only [List.map_cons, List.map_nil, List.mem_singleton] at hb
        subst hb
        obtain ⟨e, he, hfe⟩ := List.mem_map.mp ha
        have := hlt e (List.mem_of_mem_filter he)
        rw [hfe] at this
        exact absurd this (Nat.lt_irrefl _)
      · rw [List.map_append, List.nodup_append]
        refine ⟨((List.filter_sublist _).map _).nodup hid, List.nodup_singleton _, ?_⟩
        intro a ha hb
        simp only [List.map_cons, List.map_nil, List.mem_singleton] at hb
        subst hb
        obtain ⟨e, he, hfe⟩ := List.mem_map.mp ha
        have := (List.mem_filter.mp he).2
        rw [hfe] at this
        simp at this
  | browseResult nodeId =>
      cases hf : s.pending.find? (fun e => e.id == ("browse_" ++ nodeId)) with
      | none =>
          simp only [corrStep, hf]
          exact ⟨hlt, hsn, hid⟩
      | some e =>
          simp only [corrStep, hf]
          exact corrInv_filter s _ _ ⟨hlt, hsn, hid⟩
  | errorResponse requestId =>
      cases hf : s.pending.find? (fun e => e.id == requestId) with
      | none =>
          simp only [corrStep, hf]
          exact ⟨hlt, hsn, hid⟩
      | some e =>
          simp only [corrStep, hf]
          exact corrInv_filter s _ _ ⟨hlt, hsn, hid⟩
  | sweep now =>
      exact corrInv_filter s _ _ ⟨hlt, hsn, hid⟩

/-- Serial-keyed count of a pending sublist: zero when the serial is absent. -/
theorem countP_serial_eq_zero (l : List PendingEntry) (k : Nat)
    (h : ∀ e ∈ l, e.serial ≠ k) :
    l.countP (fun e1 => e1.serial == k) = 0 := by
  rw [List.countP_eq_zero]
  intro x hx
  simpa using h x hx

/-- Serial-keyed count of a serial-unique list containing the entry: one. -/
theorem countP_serial_eq_one (l : List PendingEntry) (e : PendingEntry)
    (hn : (l.map PendingEntry.serial).Nodup) (he : e ∈ l) :
    l.countP (fun e1 => e1.serial == e.serial) = 1 := by
  induction l with
  | nil => cases he
  | cons a l ih =>
      rw [List.countP_cons]
      rcases List.mem_cons.mp he with rfl | he1
      · have ha : e.serial ∉ l.map PendingEntry.serial :=
          (List.nodup_cons.mp (by simpa using hn)).1
        have h0 : l.countP (fun e1 => e1.serial == e.serial) = 0 := by
          rw [List.countP_eq_zero]
          intro x hx
          simp only [beq_iff_eq]
          intro hc
          exact ha (List.mem_map.mpr ⟨x, hx, hc⟩)
        simp [h0]
      · have hne : a.serial ≠ e.serial := by
          intro hc
          exact (List.nodup_cons.mp (by simpa using hn)).1
            (List.mem_map.mpr ⟨e, he1, hc.symm⟩)
        have ht := ih (List.nodup_cons.mp (by simpa using hn)).2 he1
        simp [ht, beq_eq_false_iff_ne.mpr hne]

/-- Stability: once a request is below the counter and absent from the
registry, one transition keeps it absent and leaves its settle count fixed. -/
theorem corrStep_stable (s : CorrState) (ev : CorrEvent) (k : Nat)
    (hk : k < s.nextSerial) (hp : ∀ e ∈ s.pending, e.serial ≠ k) :
    k < (corrStep s ev).nextSerial ∧
    (∀ e ∈ (corrStep s ev).pending, e.serial ≠ k) ∧
    settledCount (corrStep s ev) k = settledCount s k := by
  cases ev with
  | register id now =>
      refine ⟨Nat.lt_succ_of_lt hk, ?_, rfl⟩
      intro e he
      rcases List.mem_append.mp he with h1 | h1
      · exact hp e (List.mem_of_mem_filter h1)
      · simp only [List.mem_singleton] at h1
        subst h1
        exact Nat.ne_of_gt hk
  | browseResult nodeId =>
      cases hf : s.pending.find? (fun e => e.id == ("browse_" ++ nodeId)) with
      | none =>
          simp only [corrStep, hf]
          exact ⟨hk, hp, by trivial⟩
      | some e =>
          have he : e ∈ s.pending := List.mem_of_find?_eq_some hf
          simp only [corrStep, hf]
          refine ⟨hk, ?_, ?_⟩
          · intro e1 h1
            exact hp e1 (List.mem_of_mem_filter h1)
          · simp only [settledCount, List.countP_append]
            have h0 : ((e.serial == k) : Bool) = false := beq_eq_false_iff_ne.mpr (hp e he)
            simp [List.countP_cons, h0]
  | errorResponse requestId =>
      cases hf : s.pending.find? (fun e => e.id == requestId) with
      | none =>
          simp only [corrStep, hf]
          exact ⟨hk, hp, by trivial⟩
      | some e =>
          have he : e ∈ s.pending := List.mem_of_find?_eq_some hf
          simp only [corrStep, hf]
          refine ⟨hk, ?_, ?_⟩
          · intro e1 h1
            exact hp e1 (List.mem_of_mem_filter h1)
          · simp only [settledCount, List.countP_append]
            have h0 : ((e.serial == k) : Bool) = false := beq_eq_false_iff_ne.mpr (hp e he)
            simp [List.countP_cons, h0]
  | sweep now =>
      refine ⟨hk, ?_, ?_⟩
      · intro e1 h1
        exact hp e1 (List.mem_of_mem_filter h1)
      · simp only [corrStep, settledCount, List.countP_append, List.countP_map]
        have h0 : (s.pending.filter (fun e => (30000 < now - e.timestamp : Bool))).countP
            ((fun p => p.1 == k) ∘ (fun e => (e.serial,
              if "browse_".isPrefixOf e.id then SettleKind.resolved
              else SettleKind.rejected))) = 0 := by
          rw [List.countP_eq_zero]
          intro e1 h1
          simpa using hp e1 (List.mem_of_mem_filter h1)
        rw [h0, Nat.add_zero]

/-- Stability over a whole trace of later events. -/
theorem corrRunFrom_stable (events : List CorrEvent) :
    ∀ (s : CorrState) (k : Nat), k < s.nextSerial → (∀ e ∈ s.pending, e.serial ≠ k) →
      k < (corrRunFrom s events).nextSerial ∧
      (∀ e ∈ (corrRunFrom s events).pending, e.serial ≠ k) ∧
      settledCount (corrRunFrom s events) k = settledCount s k := by
  induction events with
  | nil => exact fun s k hk hp => ⟨hk, hp, rfl⟩
  | cons ev evs ih =>
      intro s k hk hp
      obtain ⟨hk1, hp1, hc1⟩ := corrStep_stable s ev k hk hp
      obtain ⟨hk2, hp2, hc2⟩ := ih (corrStep s ev) k hk1 hp1
      exact ⟨hk2, hp2, hc2.trans hc1⟩

/-- With unique keys, `find?` on a key held by a member returns that member. -/
theorem find?_id_eq_some_of_nodup (l : List PendingEntry) (hid : String) (e : PendingEntry)
    (hn : (l.map PendingEntry.id).Nodup) (he : e ∈ l) (heid : e.id = hid) :
    l.find? (fun x => x.id == hid) = some e := by
  induction l with
  | nil => cases he
  | cons a l ih =>
      rcases List.mem_cons.mp he with rfl | he1
      · exact List.find?_cons_of_pos _ (by simp [heid])
      · have hna : a.id ≠ hid := by
          intro hcontra
          have hmem : a.id ∈ l.map PendingEntry.id :=
            List.mem_map.mpr ⟨e, he1, by rw [heid, hcontra]⟩
          exact (List.nodup_cons.mp (by simpa using hn)).1 hmem
        rw [List.find?_cons_of_neg _ (by simp [hna])]
        exact ih (List.nodup_cons.mp (by simpa using hn)).2 he1

/-- **C8 (amended).** Provided no later registration reuses the pending
request's key (a re-registration replaces the old handler without ever
invoking it — see the counterexample) and the trace contains an expiry-sweep
tick later than 30 seconds past the request's creation, a registered
PendingRequest is resolved or rejected exactly once: the first matching
`browse_result` or `error` response, or the first expiring sweep, settles it
and removes it from the registry, and no later event — including a
late-arriving response after expiry — settles it again. -/
theorem pendingRequest_settled_once (events : List CorrEvent) :
    ∀ (s : CorrState) (e : PendingEntry),
      CorrInv s →
      e ∈ s.pending →
      settledCount s e.serial = 0 →
      (∀ id now, CorrEvent.register id now ∈ events → id ≠ e.id) →
      (∃ now, CorrEvent.sweep now ∈ events ∧ e.timestamp + 30000 < now) →
      settledCount (corrRunFrom s events) e.serial = 1 := by
  induction events with
  | nil =>
      rintro s e _ _ _ _ ⟨now, hmem, _⟩
      cases hmem
  | cons ev evs ih =>
      rintro s e hinv he h0 hreg ⟨now, hsw, hnow⟩
      obtain ⟨hlt, hsn, hid⟩ := hinv
      have hrun : corrRunFrom s (ev :: evs) = corrRunFrom (corrStep s ev) evs := rfl
      cases ev with
      | register id now1 =>
          have hne : id ≠ e.id := hreg id now1 (List.mem_cons_self _ _)
          have he1 : e ∈ (corrStep s (CorrEvent.register id now1)).pending := by
            simp only [corrStep]
            refine List.mem_append.mpr (Or.inl (List.mem_filter.mpr ⟨he, ?_⟩))
            exact bne_iff_ne.mpr (fun hc => hne hc.symm)
          rw [hrun]
          refine ih _ e (corrStep_inv s _ ⟨hlt, hsn, hid⟩) he1 h0 ?_ ?_
          · intro id2 now2 hm
            exact hreg id2 now2 (List.mem_cons_of_mem _ hm)
          · rcases List.mem_cons.mp hsw with hswh | hswt
            · exact CorrEvent.noConfusion hswh
            · exact ⟨now, hswt, hnow⟩
      | browseResult nodeId =>
          by_cases hcase : e.id = "browse_" ++ nodeId
          · have hf : s.pending.find? (fun x => x.id == ("browse_" ++ nodeId)) = some e :=
              find?_id_eq_some_of_nodup s.pending _ e hid he hcase
            have h0w : s.settled.countP (fun p => p.1 == e.serial) = 0 := h0
            have hc1 : settledCount (corrStep s (CorrEvent.browseResult nodeId)) e.serial = 1 := by
              simp only [corrStep, hf, settledCount, List.countP_append, h0w]
              simp [List.countP_cons]
            have hp1 : ∀ e1 ∈ (corrStep s (CorrEvent.browseResult nodeId)).pending,
                e1.serial ≠ e.serial := by
              simp only [corrStep, hf]
              intro e1 h1 hser
              obtain ⟨h1m, h1p⟩ := List.mem_filter.mp h1
              have he1e : e1 = e := List.inj_on_of_nodup_map hsn h1m he hser
              subst he1e
              rw [bne_iff_ne] at h1p
              exact h1p hcase
            have hlt1 : e.serial < (corrStep s (CorrEvent.browseResult nodeId)).nextSerial := by
              simp only [corrStep, hf]
              exact hlt e he
            obtain ⟨_, _, hstab⟩ := corrRunFrom_stable evs _ e.serial hlt1 hp1
            rw [hrun, hstab, hc1]
          · cases hf : s.pending.find? (fun x => x.id == ("browse_" ++ nodeId)) with
            | none =>
                have hstep : corrStep s (CorrEvent.browseResult nodeId) = s := by
                  simp [corrStep, hf]
                rw [hrun, hstep]
                refine ih s e ⟨hlt, hsn, hid⟩ he h0 ?_ ?_
                · intro id2 now2 hm
                  exact hreg id2 now2 (List.mem_cons_of_mem _ hm)
                · rcases List.mem_cons.mp hsw with hswh | hswt
                  · exact CorrEvent.noConfusion hswh
                  · exact ⟨now, hswt, hnow⟩
            | some e2 =>
                have he2 : e2 ∈ s.pending := List.mem_of_find?_eq_some hf
                have he2id : e2.id = "browse_" ++ nodeId := by
                  have hfp := List.find?_some hf
                  simpa using hfp
                have hne2 : e2.serial ≠ e.serial := by
                  intro hser
                  have he2e : e2 = e := List.inj_on_of_nodup_map hsn he2 he hser
                  exact hcase (he2e ▸ he2id)
                have he1 : e ∈ (corrStep s (CorrEvent.browseResult nodeId)).pending := by
                  simp only [corrStep, hf]
                  exact List.mem_filter.mpr ⟨he, bne_iff_ne.mpr hcase⟩
                have hcnt : settledCount (corrStep s (CorrEvent.browseResult nodeId)) e.serial
                    = settledCount s e.serial := by
                  simp only [corrStep, hf, settledCount, List.countP_append]
                  have hz : ((e2.serial == e.serial) : Bool) = false :=
                    beq_eq_false_iff_ne.mpr hne2
                  simp [List.countP_cons, hz]
                rw [hrun]
                refine ih _ e (corrStep_inv s _ ⟨hlt, hsn, hid⟩) he1
                  (by rw [hcnt]; exact h0) ?_ ?_
                · intro id2 now2 hm
                  exact hreg id2 now2 (List.mem_cons_of_mem _ hm)
                · rcases List.mem_cons.mp hsw with hswh | hswt
                  · exact CorrEvent.noConfusion hswh
                  · exact ⟨now, hswt, hnow⟩
      | errorResponse requestId =>
          by_cases hcase : e.id = requestId
          · have hf : s.pending.find? (fun x => x.id == requestId) = some e :=
              find?_id_eq_some_of_nodup s.pending _ e hid he hcase
            have h0w : s.settled.countP (fun p => p.1 == e.serial) = 0 := h0
            have hc1 : settledCount (corrStep s (CorrEvent.errorResponse requestId)) e.serial = 1 := by
              simp only [corrStep, hf, settledCount, List.countP_append, h0w]
              simp [List.countP_cons]
            have hp1 : ∀ e1 ∈ (corrStep s (CorrEvent.errorResponse requestId)).pending,
                e1.serial ≠ e.serial := by
              simp only [corrStep, hf]
              intro e1 h1 hser
              obtain ⟨h1m, h1p⟩ := List.mem_filter.mp h1
              have he1e : e1 = e := List.inj_on_of_nodup_map hsn h1m he hser
              subst he1e
              rw [bne_iff_ne] at h1p
              exact h1p hcase
            have hlt1 : e.serial < (corrStep s (CorrEvent.errorResponse requestId)).nextSerial := by
              simp only [corrStep, hf]
              exact hlt e he
            obtain ⟨_, _, hstab⟩ := corrRunFrom_stable evs _ e.serial hlt1 hp1
            rw [hrun, hstab, hc1]
          · cases hf : s.pending.find? (fun x => x.id == requestId) with
            | none =>
                have hstep : corrStep s (CorrEvent.errorResponse requestId) = s := by
                  simp [corrStep, hf]
                rw [hrun, hstep]
                refine ih s e ⟨hlt, hsn, hid⟩ he h0 ?_ ?_
                · intro id2 now2 hm
                  exact hreg id2 now2 (List.mem_cons_of_mem _ hm)
                · rcases List.mem_cons.mp hsw with hswh | hswt
                  · exact CorrEvent.noConfusion hswh
                  · exact ⟨now, hswt, hnow⟩
            | some e2 =>
                have he2 : e2 ∈ s.pending := List.mem_of_find?_eq_some hf
                have he2id : e2.id = requestId := by
                  have hfp := List.find?_some hf
                  simpa using hfp
                have hne2 : e2.serial ≠ e.serial := by
                  intro hser
                  have he2e : e2 = e := List.inj_on_of_nodup_map hsn he2 he hser
                  exact hcase (he2e ▸ he2id)
                have he1 : e ∈ (corrStep s (CorrEvent.errorResponse requestId)).pending := by
                  simp only [corrStep, hf]
                  exact List.mem_filter.mpr ⟨he, bne_iff_ne.mpr hcase⟩
                have hcnt : settledCount (corrStep s (CorrEvent.errorResponse requestId)) e.serial
                    = settledCount s e.serial := by
                  simp only [corrStep, hf, settledCount, List.countP_append]
                  have hz : ((e2.serial == e.serial) : Bool) = false :=
                    beq_eq_false_iff_ne.mpr hne2
                  simp [List.countP_cons, hz]
                rw [hrun]
                refine ih _ e (corrStep_inv s _ ⟨hlt, hsn, hid⟩) he1
                  (by rw [hcnt]; exact h0) ?_ ?_
                · intro id2 now2 hm
                  exact hreg id2 now2 (List.mem_cons_of_mem _ hm)
                · rcases List.mem_cons.mp hsw with hswh | hswt
                  · exact CorrEvent.noConfusion hswh
                  · exact ⟨now, hswt, hnow⟩
      | sweep now1 =>
          by_cases hexp : 30000 < now1 - e.timestamp
          · have h0w : s.settled.countP (fun p => p.1 == e.serial) = 0 := h0
            have hmemexp :
                e ∈ s.pending.filter (fun x => (30000 < now1 - x.timestamp : Bool)) :=
              List.mem_filter.mpr ⟨he, decide_eq_true hexp⟩
            have hnodexp :
                ((s.pending.filter (fun x => (30000 < now1 - x.timestamp : Bool))).map
                  PendingEntry.serial).Nodup :=
              ((List.filter_sublist _).map _).nodup hsn
            have hc1 : settledCount (corrStep s (CorrEvent.sweep now1)) e.serial = 1 := by
              simp only [corrStep, settledCount, List.countP_append, List.countP_map, h0w]
              have hcomp : ((fun p : Nat × SettleKind => p.1 == e.serial) ∘
                  (fun x : PendingEntry =>
                    (x.serial, if "browse_".isPrefixOf x.id then SettleKind.resolved
                      else SettleKind.rejected))) =
                  fun x : PendingEntry => x.serial == e.serial := rfl
              rw [hcomp, countP_serial_eq_one _ e hnodexp hmemexp]
            have hp1 : ∀ e1 ∈ (corrStep s (CorrEvent.sweep now1)).pending,
                e1.serial ≠ e.serial := by
              intro e1 h1 hser
              obtain ⟨h1m, h1p⟩ := List.mem_filter.mp h1
              have he1e : e1 = e := List.inj_on_of_nodup_map hsn h1m he hser
              subst he1e
              rw [decide_eq_true hexp] at h1p
              simp at h1p
            have hlt1 : e.serial < (corrStep s (CorrEvent.sweep now1)).nextSerial := hlt e he
            obtain ⟨_, _, hstab⟩ := corrRunFrom_stable evs _ e.serial hlt1 hp1
            rw [hrun, hstab, hc1]
          · have he1 : e ∈ (corrStep s (CorrEvent.sweep now1)).pending :=
              List.mem_filter.mpr ⟨he, by rw [decide_eq_false hexp]; rfl⟩
            have hcnt : settledCount (corrStep s (CorrEvent.sweep now1)) e.serial
                = settledCount s e.serial := by
              simp only [corrStep, settledCount, List.countP_append, List.countP_map]
              have hz : (s.pending.filter (fun x => (30000 < now1 - x.timestamp : Bool))).countP
                  ((fun p : Nat × SettleKind => p.1 == e.serial) ∘
                    (fun x : PendingEntry =>
                      (x.serial, if "browse_".isPrefixOf x.id then SettleKind.resolved
                        else SettleKind.rejected))) = 0 := by
                rw [List.countP_eq_zero]
                intro e1 h1
                obtain ⟨h1m, h1p⟩ := List.mem_filter.mp h1
                intro hc
                have hser : e1.serial = e.serial := by simpa using hc
                have he1e : e1 = e := List.inj_on_of_nodup_map hsn h1m he hser
                subst he1e
                exact hexp (of_decide_eq_true h1p)
              rw [hz, Nat.add_zero]
            rw [hrun]
            refine ih _ e (corrStep_inv s _ ⟨hlt, hsn, hid⟩) he1
              (by rw [hcnt]; exact h0) ?_ ?_
            · intro id2 now2 hm
              exact hreg id2 now2 (List.mem_cons_of_mem _ hm)
            · rcases List.mem_cons.mp hsw with hswh | hswt
              · obtain rfl : now = now1 := by injection hswh
                exact absurd (Nat.lt_sub_of_add_lt (by omega)) hexp
              · exact ⟨now, hswt, hnow⟩

/-- Witness for C8 (amended): a lone pending browse request with no matching
response is settled exactly once by an expiry sweep 40 seconds later. -/
theorem pendingRequest_settled_once_witness :
    settledCount (corrRunFrom ⟨[⟨0, "browse_ns=1;s=A", 0⟩], [], 1⟩
      [CorrEvent.sweep 40000]) 0 = 1 :=
  pendingRequest_settled_once [CorrEvent.sweep 40000]
    ⟨[⟨0, "browse_ns=1;s=A", 0⟩], [], 1⟩ ⟨0, "browse_ns=1;s=A", 0⟩
    ⟨by simp, by simp, by simp⟩ (by simp) rfl
    (by intro id now hm; simp at hm)
    ⟨40000, by simp, by norm_num⟩

end Opcuagua
